import Mathlib

/-!
Shallow embedding of the validation and URL-helper layer of the altogic
client utilities module (`ClientError`-raising validators `checkRequired`,
`arrayRequired`, `integerRequired`, `objectRequired`, and the URL helpers
`removeTrailingSlash` / `normalizeUrl`).

JavaScript runtime values relevant to the validators are modelled by the
inductive `JSValue`; numbers are modelled as either NaN or a rational
(`JSNumber`), which captures `Number.isInteger` and ordering against zero.
A validator that throws is modelled as returning `some e` for the thrown
`ClientError`; returning normally is `none`.
-/

/-- A JavaScript number as seen by the validators: NaN, or a finite value
modelled as a rational (fractional vs. whole distinguished by denominator). -/
inductive JSNumber where
  | nan : JSNumber
  | rat : ℚ → JSNumber
deriving DecidableEq, Repr

/-- A JavaScript runtime value at the boundary of the validators. Plain
(non-array) objects carry no payload because the validators only inspect
`typeof` and `Array.isArray`. -/
inductive JSValue where
  | vNull : JSValue
  | vUndefined : JSValue
  | vBool : Bool → JSValue
  | vStr : String → JSValue
  | vNum : JSNumber → JSValue
  | vArr : List JSValue → JSValue
  | vObj : JSValue

/-- The structured error raised by the validators (`ClientError` in the
source): a machine-readable `code` and a human-readable `message`. -/
structure ClientError where
  code : String
  message : String
deriving DecidableEq, Repr

/-- JavaScript `typeof` on the modelled values (`typeof null` is `"object"`,
arrays are `"object"`). -/
def jsTypeof : JSValue → String
  | JSValue.vNull => "object"
  | JSValue.vUndefined => "undefined"
  | JSValue.vBool _ => "boolean"
  | JSValue.vStr _ => "string"
  | JSValue.vNum _ => "number"
  | JSValue.vArr _ => "object"
  | JSValue.vObj => "object"

/-- JavaScript `Array.isArray`. -/
def isArray : JSValue → Bool
  | JSValue.vArr _ => true
  | _ => false

/-- `String.prototype.trim`: remove whitespace from both ends. -/
def jsTrim (s : String) : String :=
  String.mk (((s.data.dropWhile Char.isWhitespace).reverse.dropWhile
    Char.isWhitespace).reverse)

/-- JavaScript strict equality against `null` or `undefined`
(`fieldValue === null || fieldValue === undefined`). -/
def isNullOrUndefined : JSValue → Bool
  | JSValue.vNull => true
  | JSValue.vUndefined => true
  | _ => false

/-- JavaScript strict equality against the empty string
(`fieldValue === ""`): true only for a string value whose payload is empty. -/
def strictEqEmptyString : JSValue → Bool
  | JSValue.vStr s => s = ""
  | _ => false

/-- `typeof fieldValue === "string" && fieldValue.trim() === ""`. -/
def isBlankString : JSValue → Bool
  | JSValue.vStr s => jsTrim s = ""
  | _ => false

/-- JavaScript `Number.isInteger`: true only for a finite number value with
no fractional part (false for NaN and for every non-number value). -/
def numberIsInteger : JSValue → Bool
  | JSValue.vNum (JSNumber.rat q) => q.den = 1
  | _ => false

/-- JavaScript `fieldValue <= 0` as used in `integerRequired`; only reached
after `Number.isInteger(fieldValue)` holds, so only the finite-number case
matters (NaN comparisons are false). -/
def jsLeZero : JSValue → Bool
  | JSValue.vNum (JSNumber.rat q) => q ≤ 0
  | _ => false

/-- JavaScript `fieldValue.length` as used in `arrayRequired`; only reached
after `Array.isArray(fieldValue)` holds. -/
def jsArrayLength : JSValue → Nat
  | JSValue.vArr elems => elems.length
  | _ => 0

/-- `checkRequired(fieldName, fieldValue, checkEmptyString = true)`: throws
`missing_required_value` when the value is null/undefined, and, when
`checkEmptyString` is set, also when it is an empty or whitespace-only
string. `some e` models a throw, `none` a normal return. -/
def checkRequired (fieldName : String) (fieldValue : JSValue)
    (checkEmptyString : Bool) : Option ClientError :=
  if isNullOrUndefined fieldValue then
    some ⟨"missing_required_value",
      fieldName ++ " is a required parameter, cannot be left empty"⟩
  else if checkEmptyString &&
      (strictEqEmptyString fieldValue || isBlankString fieldValue) then
    some ⟨"missing_required_value",
      fieldName ++ " is a required parameter, cannot be left empty"⟩
  else
    none

/-- `arrayRequired(fieldName, fieldValue, checkEmptyArray = false)`: delegates
to `checkRequired` with string-emptiness checking off, then throws
`invalid_value` for non-arrays and — when `checkEmptyArray` is set —
the (misspelled in the source) code `emtpy_array` for zero-length arrays. -/
def arrayRequired (fieldName : String) (fieldValue : JSValue)
    (checkEmptyArray : Bool) : Option ClientError :=
  match checkRequired fieldName fieldValue false with
  | some e => some e
  | none =>
    if !(isArray fieldValue) then
      some ⟨"invalid_value", fieldName ++ " needs to be an array"⟩
    else if checkEmptyArray && jsArrayLength fieldValue == 0 then
      some ⟨"emtpy_array",
        fieldName ++ " needs to be an array with at least one entry"⟩
    else
      none

/-- `integerRequired(fieldName, fieldValue, checkPositive = true)`: delegates
to `checkRequired` (presence only), then throws `invalid_value` for
non-integers and — when `checkPositive` is set — for integers `<= 0`. -/
def integerRequired (fieldName : String) (fieldValue : JSValue)
    (checkPositive : Bool) : Option ClientError :=
  match checkRequired fieldName fieldValue false with
  | some e => some e
  | none =>
    if !(numberIsInteger fieldValue) then
      some ⟨"invalid_value", fieldName ++ " needs to be an integer"⟩
    else if checkPositive && jsLeZero fieldValue then
      some ⟨"invalid_value", fieldName ++ " needs to be a positive integer"⟩
    else
      none

/-- `objectRequired(fieldName, fieldValue, checkArray = false)`: delegates to
`checkRequired` (presence only), then throws `invalid_value` when
`typeof fieldValue !== "object"`, and — when `checkArray` is set — also when
the value is not an array. -/
def objectRequired (fieldName : String) (fieldValue : JSValue)
    (checkArray : Bool) : Option ClientError :=
  match checkRequired fieldName fieldValue false with
  | some e => some e
  | none =>
    if jsTypeof fieldValue ≠ "object" then
      some ⟨"invalid_value", fieldName ++ " needs to be an object"⟩
    else if !(isArray fieldValue) && checkArray then
      some ⟨"invalid_value", fieldName ++ " needs to be an array"⟩
    else
      none

/-- `removeTrailingSlash(url)`: `url.replace(/\/$/, "")` — if the string ends
with `/`, remove that final character, otherwise return it unchanged. -/
def removeTrailingSlash (url : String) : String :=
  if url.data.getLast? = some '/' then String.mk url.data.dropLast else url

/-- `normalizeUrl(url)`: `removeTrailingSlash(url.trim())`. -/
def normalizeUrl (url : String) : String :=
  removeTrailingSlash (jsTrim url)

/-- On the reversed character list, the situation `… //` at the end of the
url: the first two characters of the reversed list are both `/`. -/
def twoLeadSlashesRev : List Char → Bool
  | c :: d :: _ => c = '/' && d = '/'
  | _ => false

/-- The url ends with two consecutive `/` characters. -/
def endsWithTwoSlashes (s : String) : Bool :=
  twoLeadSlashesRev s.data.reverse

/-- On the reversed character list of the trimmed url: a final `/` preceded
by another `/` or by a whitespace character — exactly the situations where
stripping that slash leaves a string that trimming or slash-stripping would
change again. -/
def badTrimRev : List Char → Bool
  | c :: d :: _ => c = '/' && (d = '/' || d.isWhitespace)
  | _ => false

/-- The trimmed url ends in `//` or in whitespace followed by `/`. -/
def trimmedEndsBad (s : String) : Bool :=
  badTrimRev (jsTrim s).data.reverse

/-- `removeTrailingSlash` seen on the reversed character list: drop one
leading `/`. -/
def dropLeadSlashRev : List Char → List Char
  | [] => []
  | c :: rest => if c = '/' then rest else c :: rest

theorem string_eq_of_data {a b : String} (h : a.data = b.data) : a = b := by
  rcases a with ⟨da⟩
  rcases b with ⟨db⟩
  cases h
  rfl

theorem string_eq_of_data_reverse {a b : String}
    (h : a.data.reverse = b.data.reverse) : a = b :=
  string_eq_of_data (List.reverse_inj.mp h)

theorem removeTrailingSlash_data_reverse (x : String) :
    (removeTrailingSlash x).data.reverse = dropLeadSlashRev x.data.reverse := by
  rcases hrev : x.data.reverse with _ | ⟨c, t⟩
  · have hd : x.data = [] := by
      have h2 := congrArg List.reverse hrev
      simpa using h2
    simp [removeTrailingSlash, hd, dropLeadSlashRev]
  · have hd : x.data = t.reverse ++ [c] := by
      have h2 := congrArg List.reverse hrev
      simpa using h2
    by_cases hc : c = '/'
    · subst hc
      simp [removeTrailingSlash, hd, List.getLast?_concat, dropLeadSlashRev]
    · have hlast : x.data.getLast? = some c := by
        rw [hd]; exact List.getLast?_concat _
      have hne : ¬ (x.data.getLast? = some '/') := by simp [hlast, hc]
      simp [removeTrailingSlash, hne, hrev, dropLeadSlashRev, hc]

theorem jsTrim_data_reverse (s : String) :
    (jsTrim s).data.reverse =
      (s.data.dropWhile Char.isWhitespace).reverse.dropWhile
        Char.isWhitespace := by
  simp [jsTrim]

theorem dropWhile_head?_false {p : Char → Bool} {l : List Char} {c : Char}
    (h : (l.dropWhile p).head? = some c) : p c = false := by
  induction l with
  | nil => simp [List.dropWhile] at h
  | cons x xs ih =>
    by_cases hx : p x
    · rw [List.dropWhile_cons, if_pos hx] at h
      exact ih h
    · rw [List.dropWhile_cons, if_neg hx] at h
      simp at h
      subst h
      simpa using hx

theorem dropWhile_getLast? {p : Char → Bool} {c : Char} {l : List Char}
    (h1 : l.getLast? = some c) (h2 : p c = false) :
    (l.dropWhile p).getLast? = some c := by
  induction l with
  | nil => simp at h1
  | cons x xs ih =>
    rcases xs with _ | ⟨y, ys⟩
    · simp at h1
      cases h1
      simp [List.dropWhile, h2]
    · rw [List.getLast?_cons_cons] at h1
      by_cases hx : p x
      · rw [List.dropWhile_cons, if_pos hx]
        exact ih h1
      · rw [List.dropWhile_cons, if_neg hx]
        rw [List.getLast?_cons_cons]
        exact h1

theorem dropWhile_eq_self_of_head? {p : Char → Bool} {l : List Char}
    (h : ∀ c, l.head? = some c → p c = false) : l.dropWhile p = l := by
  cases l with
  | nil => rfl
  | cons x xs => simp [List.dropWhile_cons, h x rfl]

theorem dropLeadSlashRev_idem {l : List Char}
    (h : twoLeadSlashesRev l = false) :
    dropLeadSlashRev (dropLeadSlashRev l) = dropLeadSlashRev l := by
  rcases l with _ | ⟨c, _ | ⟨d, t⟩⟩
  · rfl
  · by_cases hc : c = '/' <;> simp [dropLeadSlashRev, hc]
  · by_cases hc : c = '/'
    · subst hc
      have hd : ¬ (d = '/') := by simpa [twoLeadSlashesRev] using h
      simp [dropLeadSlashRev, hd]
    · simp [dropLeadSlashRev, hc]

theorem removeTrailingSlash_idem_aux (x : String)
    (hx : endsWithTwoSlashes x = false) :
    removeTrailingSlash (removeTrailingSlash x) = removeTrailingSlash x := by
  apply string_eq_of_data_reverse
  rw [removeTrailingSlash_data_reverse, removeTrailingSlash_data_reverse]
  exact dropLeadSlashRev_idem hx

theorem jsTrim_head_not_ws {y : String} {c : Char}
    (h : ((jsTrim y).data.reverse).head? = some c) :
    c.isWhitespace = false := by
  rw [jsTrim_data_reverse] at h
  exact dropWhile_head?_false h

theorem jsTrim_getLast_not_ws {y : String} {c : Char}
    (h : ((jsTrim y).data.reverse).getLast? = some c) :
    c.isWhitespace = false := by
  rw [jsTrim_data_reverse] at h
  rcases hA : y.data.dropWhile Char.isWhitespace with _ | ⟨a, A2⟩
  · rw [hA] at h
    simp at h
  · rw [hA] at h
    have ha : Char.isWhitespace a = false := by
      apply dropWhile_head?_false (l := y.data)
      rw [hA]
      rfl
    have hkeep : ((a :: A2).reverse.dropWhile
        Char.isWhitespace).getLast? = some a := by
      apply dropWhile_getLast? _ ha
      rw [List.getLast?_reverse]
      rfl
    rw [hkeep] at h
    simp at h
    subst h
    exact ha

theorem dropLeadSlashRev_eq_self {l : List Char}
    (h : ∀ c, l.head? = some c → ¬ (c = '/')) : dropLeadSlashRev l = l := by
  cases l with
  | nil => rfl
  | cons x xs => simp [dropLeadSlashRev, h x rfl]

theorem normalize_fix_core (d : List Char)
    (hhead : ∀ c, d.head? = some c → c.isWhitespace = false)
    (hlast : ∀ c, d.getLast? = some c → c.isWhitespace = false)
    (hbad : badTrimRev d = false) :
    (∀ c, (dropLeadSlashRev d).head? = some c →
      c.isWhitespace = false ∧ ¬ (c = '/')) ∧
    (∀ c, (dropLeadSlashRev d).getLast? = some c →
      c.isWhitespace = false) := by
  rcases d with _ | ⟨c0, t⟩
  · exact ⟨by simp [dropLeadSlashRev], by simp [dropLeadSlashRev]⟩
  · by_cases hc0 : c0 = '/'
    · subst hc0
      constructor
      · intro c hc
        simp [dropLeadSlashRev] at hc
        rcases t with _ | ⟨c2, t2⟩
        · simp at hc
        · simp at hc
          subst hc
          simp [badTrimRev] at hbad
          exact ⟨hbad.2, hbad.1⟩
      · intro c hc
        simp [dropLeadSlashRev] at hc
        rcases t with _ | ⟨c2, t2⟩
        · simp at hc
        · apply hlast
          rw [List.getLast?_cons_cons]
          exact hc
    · constructor
      · intro c hc
        simp [dropLeadSlashRev, hc0] at hc
        subst hc
        exact ⟨hhead c0 rfl, hc0⟩
      · intro c hc
        simp [dropLeadSlashRev, hc0] at hc
        exact hlast c hc

theorem jsTrim_eq_self (r : String)
    (hhead : ∀ c, r.data.head? = some c → c.isWhitespace = false)
    (hlast : ∀ c, r.data.reverse.head? = some c → c.isWhitespace = false) :
    jsTrim r = r := by
  apply string_eq_of_data
  show ((r.data.dropWhile Char.isWhitespace).reverse.dropWhile
    Char.isWhitespace).reverse = r.data
  rw [dropWhile_eq_self_of_head? hhead, dropWhile_eq_self_of_head? hlast,
    List.reverse_reverse]

theorem normalizeUrl_idem_aux (y : String) (hy : trimmedEndsBad y = false) :
    normalizeUrl (normalizeUrl y) = normalizeUrl y := by
  obtain ⟨hehead, helast⟩ :=
    normalize_fix_core ((jsTrim y).data.reverse)
      (fun _ hc => jsTrim_head_not_ws hc)
      (fun _ hc => jsTrim_getLast_not_ws hc) hy
  have hr : (normalizeUrl y).data.reverse =
      dropLeadSlashRev ((jsTrim y).data.reverse) := by
    rw [normalizeUrl, removeTrailingSlash_data_reverse]
  have hrhead : ∀ c, (normalizeUrl y).data.reverse.head? = some c →
      c.isWhitespace = false ∧ ¬ (c = '/') := by
    intro c hc
    rw [hr] at hc
    exact hehead c hc
  have hrlast : ∀ c, (normalizeUrl y).data.reverse.getLast? = some c →
      c.isWhitespace = false := by
    intro c hc
    rw [hr] at hc
    exact helast c hc
  have htrim : jsTrim (normalizeUrl y) = normalizeUrl y := by
    apply jsTrim_eq_self
    · intro c hc
      apply hrlast
      rw [List.getLast?_reverse]
      exact hc
    · intro c hc
      exact (hrhead c hc).1
  apply string_eq_of_data_reverse
  calc (normalizeUrl (normalizeUrl y)).data.reverse
      = dropLeadSlashRev ((jsTrim (normalizeUrl y)).data.reverse) := by
        rw [normalizeUrl, removeTrailingSlash_data_reverse]
    _ = dropLeadSlashRev ((normalizeUrl y).data.reverse) := by rw [htrim]
    _ = (normalizeUrl y).data.reverse :=
        dropLeadSlashRev_eq_self (fun c hc => (hrhead c hc).2)

/-- C1 (code bug): for the empty array with `checkEmptyArray` enabled,
`arrayRequired` raises an error whose code is the misspelled string
`emtpy_array`, not the documented `empty_array`; with the default
`checkEmptyArray = false` it returns normally. -/
theorem arrayRequired_emptyArray_code_typo :
    arrayRequired "f" (JSValue.vArr []) true =
      some ⟨"emtpy_array", "f needs to be an array with at least one entry"⟩ ∧
    (arrayRequired "f" (JSValue.vArr []) true).map ClientError.code ≠
      some "empty_array" ∧
    arrayRequired "f" (JSValue.vArr []) false = none := by
  decide

/-- C5 (code bug): the error raised by `arrayRequired` for an empty array
with `checkEmptyArray` enabled carries the code `emtpy_array`, which lies
outside the documented closed taxonomy
`missing_required_value | invalid_value | empty_array`. -/
theorem errorSignal_code_outside_taxonomy :
    arrayRequired "g" (JSValue.vArr []) true =
      some ⟨"emtpy_array", "g needs to be an array with at least one entry"⟩ ∧
    ¬ ("emtpy_array" ∈
      ["missing_required_value", "invalid_value", "empty_array"]) := by
  decide

/-- C2 (counterexample): `objectRequired("f", [], false)` returns normally —
an array is `typeof "object"`, so the default call accepts it instead of
raising `invalid_value` as claimed. -/
theorem objectRequired_emptyArray_default_ok :
    objectRequired "f" (JSValue.vArr []) false = none := by decide

/-- C2 (amended): for every array value, `objectRequired` with the default
`checkArray = false` returns normally; in particular
`objectRequired("f", [])` returns normally. -/
theorem objectRequired_accepts_arrays_by_default (fieldName : String)
    (elems : List JSValue) :
    objectRequired fieldName (JSValue.vArr elems) false = none := by
  simp [objectRequired, checkRequired, isNullOrUndefined, strictEqEmptyString,
    isBlankString, jsTypeof, isArray]

/-- C3 (counterexample): enabling `checkArray` does not widen acceptance —
`objectRequired("f", {}, false)` returns normally while
`objectRequired("f", {}, true)` raises `invalid_value`. -/
theorem objectRequired_checkArray_not_widening :
    objectRequired "f" JSValue.vObj false = none ∧
    objectRequired "f" JSValue.vObj true =
      some ⟨"invalid_value", "f needs to be an array"⟩ := by
  decide

/-- C3 (amended): enabling `checkArray` narrows `objectRequired`'s
acceptance: whenever the call with `checkArray = true` returns normally, the
default call also returns normally; a present non-array value of object
runtime type is rejected with `invalid_value` when `checkArray = true`; and
a plain object is accepted by the default call. -/
theorem objectRequired_checkArray_narrows (fieldName : String) (v : JSValue) :
    (objectRequired fieldName v true = none →
      objectRequired fieldName v false = none) ∧
    (isNullOrUndefined v = false → jsTypeof v = "object" → isArray v = false →
      objectRequired fieldName v true =
        some ⟨"invalid_value", fieldName ++ " needs to be an array"⟩) ∧
    objectRequired fieldName JSValue.vObj false = none := by
  refine ⟨?_, ?_, ?_⟩
  · intro h
    cases v <;> simp_all [objectRequired, checkRequired, isNullOrUndefined,
      strictEqEmptyString, isBlankString, jsTypeof, isArray]
  · intro h1 h2 h3
    simp [objectRequired, checkRequired, h1, h2, h3]
  · simp [objectRequired, checkRequired, isNullOrUndefined,
      strictEqEmptyString, isBlankString, jsTypeof, isArray]

theorem objectRequired_checkArray_narrows_witness :
    objectRequired "g" (JSValue.vArr [JSValue.vObj]) false = none ∧
    objectRequired "g" JSValue.vObj true =
      some ⟨"invalid_value", "g needs to be an array"⟩ := by
  obtain ⟨h1, _, _⟩ :=
    objectRequired_checkArray_narrows "g" (JSValue.vArr [JSValue.vObj])
  obtain ⟨_, h2, _⟩ := objectRequired_checkArray_narrows "g" JSValue.vObj
  exact ⟨h1 (by decide), h2 (by decide) (by decide) (by decide)⟩

/-- C6: `checkRequired` raises `missing_required_value` on null/undefined
for either flag value, and — with `checkEmptyString` enabled — on a string
that is empty or whitespace-only after trimming; every non-blank string is
accepted for either flag value, and `checkRequired("f", "   ", false)`
returns normally. -/
theorem checkRequired_spec (fieldName : String) (v : JSValue) (b : Bool)
    (s t : String) :
    (isNullOrUndefined v = true →
      checkRequired fieldName v b =
        some ⟨"missing_required_value",
          fieldName ++ " is a required parameter, cannot be left empty"⟩) ∧
    (jsTrim s = "" →
      checkRequired fieldName (JSValue.vStr s) true =
        some ⟨"missing_required_value",
          fieldName ++ " is a required parameter, cannot be left empty"⟩) ∧
    (jsTrim t ≠ "" → checkRequired fieldName (JSValue.vStr t) b = none) ∧
    checkRequired "f" (JSValue.vStr "   ") false = none := by
  refine ⟨?_, ?_, ?_, by decide⟩
  · intro h
    simp [checkRequired, h]
  · intro h
    simp [checkRequired, isNullOrUndefined, strictEqEmptyString,
      isBlankString, h]
  · intro h
    have hne : ¬ (t = "") := by
      intro ht
      apply h
      rw [ht]
      decide
    simp [checkRequired, isNullOrUndefined, strictEqEmptyString,
      isBlankString, h, hne]

theorem checkRequired_spec_witness :
    checkRequired "f" JSValue.vNull true =
      some ⟨"missing_required_value",
        "f is a required parameter, cannot be left empty"⟩ ∧
    checkRequired "f" (JSValue.vStr "  ") true =
      some ⟨"missing_required_value",
        "f is a required parameter, cannot be left empty"⟩ ∧
    checkRequired "f" (JSValue.vStr "x") true = none ∧
    checkRequired "f" (JSValue.vStr "   ") false = none := by
  obtain ⟨h1, h2, h3, h4⟩ := checkRequired_spec "f" JSValue.vNull true "  " "x"
  exact ⟨h1 (by decide), h2 (by decide), h3 (by decide), h4⟩

/-- C7: `integerRequired` raises `invalid_value` for every present value
that is not a whole-number integer (fractional values fail), and — with
`checkPositive` enabled — for every integer value `<= 0`; `-2` with
`checkPositive = false` and `5` with the default `checkPositive = true` are
accepted. -/
theorem integerRequired_spec (fieldName : String) (v : JSValue) (b : Bool)
    (q : ℚ) :
    (isNullOrUndefined v = false → numberIsInteger v = false →
      integerRequired fieldName v b =
        some ⟨"invalid_value", fieldName ++ " needs to be an integer"⟩) ∧
    (q.den = 1 → q ≤ 0 →
      integerRequired fieldName (JSValue.vNum (JSNumber.rat q)) true =
        some ⟨"invalid_value",
          fieldName ++ " needs to be a positive integer"⟩) ∧
    integerRequired "f" (JSValue.vNum (JSNumber.rat (mkRat 7 2))) true =
      some ⟨"invalid_value", "f needs to be an integer"⟩ ∧
    integerRequired "f" (JSValue.vNum (JSNumber.rat (-2))) false = none ∧
    integerRequired "f" (JSValue.vNum (JSNumber.rat 5)) true = none := by
  refine ⟨?_, ?_, by decide, by decide, by decide⟩
  · intro h1 h2
    simp [integerRequired, checkRequired, h1, h2]
  · intro h1 h2
    simp [integerRequired, checkRequired, isNullOrUndefined,
      strictEqEmptyString, isBlankString, numberIsInteger, jsLeZero, h1, h2]

theorem integerRequired_spec_witness :
    integerRequired "f" (JSValue.vStr "x") true =
      some ⟨"invalid_value", "f needs to be an integer"⟩ ∧
    integerRequired "f" (JSValue.vNum (JSNumber.rat (-2))) true =
      some ⟨"invalid_value", "f needs to be a positive integer"⟩ := by
  obtain ⟨h1, _, _, _, _⟩ := integerRequired_spec "f" (JSValue.vStr "x") true (-2)
  obtain ⟨_, h2, _, _, _⟩ :=
    integerRequired_spec "f" (JSValue.vStr "x") true (-2)
  exact ⟨h1 (by decide) (by decide), h2 (by decide) (by decide)⟩

/-- C8: `arrayRequired` delegates the presence stage to `checkRequired`
with string-emptiness checking disabled — so any string (even the empty
string) passes presence — and raises `invalid_value` for every present
non-array value; in particular `arrayRequired("f", "not-an-array")`
raises `invalid_value`. -/
theorem arrayRequired_nonarray_spec (fieldName : String) (v : JSValue)
    (b : Bool) :
    (isNullOrUndefined v = false → isArray v = false →
      arrayRequired fieldName v b =
        some ⟨"invalid_value", fieldName ++ " needs to be an array"⟩) ∧
    arrayRequired fieldName (JSValue.vStr "not-an-array") b =
      some ⟨"invalid_value", fieldName ++ " needs to be an array"⟩ ∧
    arrayRequired fieldName (JSValue.vStr "") b =
      some ⟨"invalid_value", fieldName ++ " needs to be an array"⟩ := by
  refine ⟨?_, ?_, ?_⟩
  · intro h1 h2
    simp [arrayRequired, checkRequired, h1, h2]
  · simp [arrayRequired, checkRequired, isNullOrUndefined,
      strictEqEmptyString, isBlankString, isArray]
  · simp [arrayRequired, checkRequired, isNullOrUndefined,
      strictEqEmptyString, isBlankString, isArray]

theorem arrayRequired_nonarray_spec_witness :
    arrayRequired "f" (JSValue.vNum (JSNumber.rat 3)) false =
      some ⟨"invalid_value", "f needs to be an array"⟩ := by
  obtain ⟨h1, _, _⟩ :=
    arrayRequired_nonarray_spec "f" (JSValue.vNum (JSNumber.rat 3)) false
  exact h1 (by decide) (by decide)

/-- C9: on a null or undefined value, all four validators raise the same
`missing_required_value` error — with the same message — before any
type-specific check, for every field name and every flag value. -/
theorem validators_consistent_on_absent (fieldName : String) (v : JSValue)
    (b1 b2 b3 b4 : Bool) (h : isNullOrUndefined v = true) :
    checkRequired fieldName v b1 =
      some ⟨"missing_required_value",
        fieldName ++ " is a required parameter, cannot be left empty"⟩ ∧
    arrayRequired fieldName v b2 =
      some ⟨"missing_required_value",
        fieldName ++ " is a required parameter, cannot be left empty"⟩ ∧
    integerRequired fieldName v b3 =
      some ⟨"missing_required_value",
        fieldName ++ " is a required parameter, cannot be left empty"⟩ ∧
    objectRequired fieldName v b4 =
      some ⟨"missing_required_value",
        fieldName ++ " is a required parameter, cannot be left empty"⟩ := by
  refine ⟨?_, ?_, ?_, ?_⟩ <;>
    simp [checkRequired, arrayRequired, integerRequired, objectRequired, h]

theorem validators_consistent_on_absent_witness :
    checkRequired "f" JSValue.vUndefined true =
      some ⟨"missing_required_value",
        "f is a required parameter, cannot be left empty"⟩ ∧
    arrayRequired "f" JSValue.vUndefined false =
      some ⟨"missing_required_value",
        "f is a required parameter, cannot be left empty"⟩ ∧
    integerRequired "f" JSValue.vUndefined true =
      some ⟨"missing_required_value",
        "f is a required parameter, cannot be left empty"⟩ ∧
    objectRequired "f" JSValue.vUndefined false =
      some ⟨"missing_required_value",
        "f is a required parameter, cannot be left empty"⟩ :=
  validators_consistent_on_absent "f" JSValue.vUndefined true false true false
    (by decide)

/-- C10: `checkRequired` treats only null and undefined as absent — every
present non-string value is accepted for either flag value (in particular
`0`, `false`, and `NaN`), and the empty string is accepted when
`checkEmptyString = false`. -/
theorem checkRequired_presence_only (fieldName : String) (v : JSValue)
    (b : Bool) (h1 : isNullOrUndefined v = false)
    (h2 : jsTypeof v ≠ "string") :
    checkRequired fieldName v b = none ∧
    checkRequired fieldName (JSValue.vNum (JSNumber.rat 0)) b = none ∧
    checkRequired fieldName (JSValue.vBool false) b = none ∧
    checkRequired fieldName (JSValue.vNum JSNumber.nan) b = none ∧
    checkRequired fieldName (JSValue.vStr "") false = none := by
  refine ⟨?_, ?_, ?_, ?_, ?_⟩
  · cases v <;> simp_all [checkRequired, isNullOrUndefined,
      strictEqEmptyString, isBlankString, jsTypeof]
  all_goals simp [checkRequired, isNullOrUndefined, strictEqEmptyString,
    isBlankString]

theorem checkRequired_presence_only_witness :
    checkRequired "f" (JSValue.vBool true) true = none ∧
    checkRequired "f" (JSValue.vNum (JSNumber.rat 0)) true = none ∧
    checkRequired "f" (JSValue.vBool false) true = none ∧
    checkRequired "f" (JSValue.vNum JSNumber.nan) true = none ∧
    checkRequired "f" (JSValue.vStr "") false = none :=
  checkRequired_presence_only "f" (JSValue.vBool true) true (by decide)
    (by decide)

/-- C4 (counterexample): neither URL helper is idempotent —
`removeTrailingSlash "a//" = "a/"` still ends in a slash, so a second
application strips again, and likewise for `normalizeUrl`. -/
theorem url_helpers_not_idempotent :
    removeTrailingSlash (removeTrailingSlash "a//") ≠
      removeTrailingSlash "a//" ∧
    normalizeUrl (normalizeUrl "a//") ≠ normalizeUrl "a//" := by
  decide

/-- C4 (amended): `removeTrailingSlash` strips exactly one trailing `/`
when present (appending one slash then stripping is the identity, and a
string with no trailing slash is returned unchanged), and `normalizeUrl`
trims whitespace and then strips one slash; idempotence holds only under a
proviso: `removeTrailingSlash` is idempotent on every string not ending in
`//`, and `normalizeUrl` is idempotent on every string whose trimmed form
ends neither in `//` nor in a whitespace character followed by `/`. -/
theorem url_helpers_conditional_idempotent (x y z : String)
    (hx : endsWithTwoSlashes x = false)
    (hy : trimmedEndsBad y = false) :
    removeTrailingSlash (removeTrailingSlash x) = removeTrailingSlash x ∧
    normalizeUrl (normalizeUrl y) = normalizeUrl y ∧
    removeTrailingSlash (z ++ "/") = z ∧
    (¬ (z.data.getLast? = some '/') → removeTrailingSlash z = z) := by
  refine ⟨removeTrailingSlash_idem_aux x hx, normalizeUrl_idem_aux y hy,
    ?_, ?_⟩
  · apply string_eq_of_data
    have hdata : (z ++ "/").data = z.data ++ ['/'] := by
      rw [String.data_append]
    simp [removeTrailingSlash, hdata, List.getLast?_concat]
  · intro h
    simp [removeTrailingSlash, h]

theorem url_helpers_conditional_idempotent_witness :
    removeTrailingSlash (removeTrailingSlash "a/") =
      removeTrailingSlash "a/" ∧
    normalizeUrl (normalizeUrl " b/ ") = normalizeUrl " b/ " ∧
    removeTrailingSlash ("c" ++ "/") = "c" ∧
    removeTrailingSlash "c" = "c" := by
  obtain ⟨h1, h2, h3, h4⟩ :=
    url_helpers_conditional_idempotent "a/" " b/ " "c" (by decide) (by decide)
  exact ⟨h1, h2, h3, h4 (by decide)⟩

